import Mathlib

/-!
Verification of the AdvancedSampler real-time synthesis engine
(`advanced_sampler.h`): a shallow embedding of the sample library, LFO,
modulation matrix, filter stage and sampler-voice playback logic, together
with theorems settling the specification claims about them.

Numeric conventions: C++ `float`/`double` values are modelled as exact
rationals `ℚ` wherever the code only performs field operations and
comparisons; the transcendental library calls `std::pow(2.0, ·)` and
`std::sin` force `ℝ` at the points where they occur.  `juce::Random`'s
`nextFloat()` stream (values in `[0,1)`) is modelled as an explicit
stream `ℕ → ℚ` consumed by an index held in the state.
-/

/-! ## Sample data (struct SampleData) -/

/-- Embeds `struct SampleData`.  `juce::AudioBuffer<float> audioData` is
modelled by its channel count, its frame count (`getNumSamples()`) and a
total read function `data ch i` (`getReadPointer(ch)[i]`). -/
structure SampleData where
  numChannels : ℕ
  numSamples : ℕ
  data : ℕ → ℕ → ℚ
  sampleRate : ℚ := 44100
  rootNote : ℤ := 60
  lowestNote : ℤ := 0
  highestNote : ℤ := 127
  loopStart : ℚ := 1/4
  loopEnd : ℚ := 3/4
  loopEnabled : Bool := false
  loopMode : ℤ := 0
  name : String := ""
  filePath : String := ""

/-! ## Sample engine (class SampleEngine) -/

/-- The range test from `SampleEngine::getSampleForNote`:
`noteNumber >= sample.lowestNote && noteNumber <= sample.highestNote`. -/
def noteInRange (noteNumber : ℤ) (s : SampleData) : Bool :=
  decide (s.lowestNote ≤ noteNumber ∧ noteNumber ≤ s.highestNote)

/-- Embeds `SampleEngine::getSampleForNote`: scan the sample vector in
order, return the first sample whose range contains the note; otherwise
return `samples.empty() ? nullptr : &samples[0]`. -/
def getSampleForNote (samples : List SampleData) (noteNumber : ℤ) :
    Option SampleData :=
  match samples.find? (noteInRange noteNumber) with
  | some s => some s
  | none => samples.head?

/-- Embeds the decoded output of `formatManager.createReaderFor` +
`reader->read`: what `SampleEngine::loadSample` copies out of a
successfully opened `juce::AudioFormatReader`. -/
structure DecodedAudio where
  numChannels : ℕ
  lengthInSamples : ℕ
  data : ℕ → ℕ → ℚ
  sampleRate : ℚ
  fileName : String
  fullPath : String

/-- Embeds `SampleEngine::loadSample(file, rootNote = 60)`.  The reader is
`none` when `createReaderFor` fails (decode failure): the function simply
returns with the sample vector unchanged.  On success a `SampleData` is
appended whose unset fields keep the struct's member initialisers
(note range 0–127, loop bounds 0.25/0.75, loop disabled, mode Forward).
The C++ function returns `void`; its only caller-visible effect is the
new state of the sample vector, which is what this embedding returns. -/
def loadSample (samples : List SampleData) (reader : Option DecodedAudio)
    (rootNote : ℤ := 60) : List SampleData :=
  match reader with
  | none => samples
  | some r =>
      samples ++ [{ numChannels := r.numChannels,
                    numSamples := r.lengthInSamples,
                    data := r.data,
                    sampleRate := r.sampleRate,
                    rootNote := rootNote,
                    name := r.fileName,
                    filePath := r.fullPath }]

/-! ## juce::jlimit -/

/-- Embeds `juce::jlimit(lower, upper, value)`:
`value < lower ? lower : (upper < value ? upper : value)`. -/
def jlimit (lower upper v : ℚ) : ℚ :=
  if v < lower then lower else if upper < v then upper else v

/-! ## Filter engine (class FilterEngine) -/

/-- The externally observable state `FilterEngine::processBlock` drives on
its `juce::dsp::StateVariableTPTFilter`: the configured cutoff frequency
and resonance. -/
structure FilterState where
  cutoff : ℚ
  resonance : ℚ

/-- Embeds the parameter-setting part of `FilterEngine::processBlock`.
`cutoffMod` is `modMatrix->getModulationValue(FilterCutoff)` when a
modulation matrix is connected (`modMatrix != nullptr`), `none` otherwise:
with a matrix, the cutoff is `jlimit(20, 20000, cutoff + cutoffMod*cutoff)`
("modulate by percentage"); the resonance parameter is passed through
unchanged in both cases. -/
def filterProcessBlock (cutoffParam resParam : ℚ) (cutoffMod : Option ℚ)
    (fs : FilterState) : FilterState :=
  match cutoffMod with
  | some m =>
      { fs with cutoff := jlimit 20 20000 (cutoffParam + m * cutoffParam),
                resonance := resParam }
  | none => { fs with cutoff := cutoffParam, resonance := resParam }

/-- The specification's formula for the effective cutoff, written as the
spec states it: `clamp(cutoffParam + cutoffModBias * cutoffParam, 20,
20000)` with `clamp` the usual max/min combination. -/
def specEffectiveCutoff (cutoffParam cutoffModBias : ℚ) : ℚ :=
  max 20 (min 20000 (cutoffParam + cutoffModBias * cutoffParam))

/-! ## LFO (class LFO) -/

/-- Embeds the mutable state of `class LFO`: the phase, the held random
value (`randomValue`), and the position in the `juce::Random` stream.
The `nextFloat()` stream itself is passed separately as `rng : ℕ → ℚ`
(each value lies in `[0,1)`). -/
structure LFOState where
  phase : ℚ
  randomValue : ℚ
  rngIdx : ℕ

/-- C++ `(int)` cast on a floating value: truncation toward zero. -/
def cppIntCast (q : ℚ) : ℤ :=
  if 0 ≤ q then ⌊q⌋ else ⌈q⌉

/-- Embeds the state update of `LFO::getNextSample`: for the random
waveform (4), `randomValue` is redrawn when `phase >= 1.0f` held at entry;
then the phase advances by `frequency / sampleRate` and wraps by
subtracting 1 when it reaches 1. -/
def lfoStep (waveform : ℕ) (frequency sampleRate : ℚ) (rng : ℕ → ℚ)
    (s : LFOState) : LFOState :=
  let rv := if waveform = 4 ∧ 1 ≤ s.phase then rng s.rngIdx * 2 - 1
            else s.randomValue
  let ix := if waveform = 4 ∧ 1 ≤ s.phase then s.rngIdx + 1 else s.rngIdx
  let p := s.phase + frequency / sampleRate
  { phase := if 1 ≤ p then p - 1 else p, randomValue := rv, rngIdx := ix }

/-- Embeds the output value of `LFO::getNextSample` (computed from the
entry state): sine, triangle, square, sawtooth and random cases of the
`switch`; a waveform outside 0–4 leaves `output = 0.0f`. -/
noncomputable def lfoOut (waveform : ℕ) (rng : ℕ → ℚ) (s : LFOState) : ℝ :=
  match waveform with
  | 0 => Real.sin ((s.phase : ℝ) * (2 * Real.pi))
  | 1 => ((2 * |2 * (s.phase - (⌊s.phase + 1/2⌋ : ℤ))| - 1 : ℚ) : ℝ)
  | 2 => ((if s.phase < 1/2 then 1 else -1 : ℚ) : ℝ)
  | 3 => ((2 * (s.phase - (⌊s.phase + 1/2⌋ : ℤ)) : ℚ) : ℝ)
  | 4 => (((if 1 ≤ s.phase then rng s.rngIdx * 2 - 1 else s.randomValue) : ℚ) : ℝ)
  | _ => 0

/-- `LFO::getNextSample` proper: returns the produced value and the
post-call state. -/
noncomputable def getNextSample (waveform : ℕ) (frequency sampleRate : ℚ)
    (rng : ℕ → ℚ) (s : LFOState) : ℝ × LFOState :=
  (lfoOut waveform rng s, lfoStep waveform frequency sampleRate rng s)

/-! ## Modulation matrix (class ModulationMatrix) -/

/-- Embeds `enum class ModulationSource`. -/
inductive ModulationSource where
  | LFO1 | LFO2 | LFO3
  | Envelope | ModWheel | Velocity
  | KeyTrack | PitchBend | Aftertouch
deriving DecidableEq

/-- Embeds `enum class ModulationDestination`. -/
inductive ModulationDestination where
  | Volume | Pan | Pitch | FilterCutoff
  | FilterResonance | SampleStart | LoopStart | LoopEnd
deriving DecidableEq

/-- Embeds `class ModulationMatrix` state: the three owned LFOs and the
two `std::map<·, float>` members (a key absent from the map is `none`). -/
structure MatrixState where
  lfos : Fin 3 → LFOState
  sourceValues : ModulationSource → Option ℝ
  destinationValues : ModulationDestination → Option ℝ

/-- Embeds `ModulationMatrix::getModulationValue`: the stored destination
value, or `0.0f` when the key is absent. -/
noncomputable def getModulationValue (st : MatrixState)
    (destination : ModulationDestination) : ℝ :=
  (st.destinationValues destination).getD 0

/-- Embeds `ModulationMatrix::setSourceValue`. -/
noncomputable def setSourceValue (st : MatrixState)
    (source : ModulationSource) (value : ℝ) : MatrixState :=
  { st with sourceValues := fun s =>
      if s = source then some value else st.sourceValues s }

/-- One iteration of the per-sample loop in
`ModulationMatrix::processBlock`: each owned LFO produces its next sample
(overwriting the corresponding source entry) and advances. -/
noncomputable def matrixIterOnce (sampleRate : ℚ) (rates : Fin 3 → ℚ)
    (waves : Fin 3 → ℕ) (rngs : Fin 3 → ℕ → ℚ) (st : MatrixState) :
    MatrixState :=
  { st with
    sourceValues := fun src =>
      if src = .LFO1 then some (lfoOut (waves 0) (rngs 0) (st.lfos 0))
      else if src = .LFO2 then some (lfoOut (waves 1) (rngs 1) (st.lfos 1))
      else if src = .LFO3 then some (lfoOut (waves 2) (rngs 2) (st.lfos 2))
      else st.sourceValues src,
    lfos := fun i =>
      lfoStep (waves i) (rates i) sampleRate (rngs i) (st.lfos i) }

/-- Embeds `ModulationMatrix::processBlock(numSamples)`: the LFO rate and
waveform parameters are re-read (here passed as arguments, with the
waveform already put through `setWaveform`'s `jlimit(0,4,·)`), the
destination map is cleared, the LFOs run once per sample of the block,
and the three fixed routings are written from the final source values
(`sourceValues[...] * amount * 0.5f / 0.1f / 0.3f`); a source key absent
from the map reads as `0.0f` (std::map `operator[]` default). -/
noncomputable def matrixProcessBlock (sampleRate : ℚ) (rates : Fin 3 → ℚ)
    (amounts : Fin 3 → ℚ) (waves : Fin 3 → ℕ) (rngs : Fin 3 → ℕ → ℚ)
    (numSamples : ℕ) (st : MatrixState) : MatrixState :=
  let cleared : MatrixState := { st with destinationValues := fun _ => none }
  let looped := (matrixIterOnce sampleRate rates waves rngs)^[numSamples] cleared
  let cutoffVal : ℝ := (looped.sourceValues .LFO1).getD 0 * (amounts 0 : ℝ) * (1/2)
  let pitchVal : ℝ := (looped.sourceValues .LFO2).getD 0 * (amounts 1 : ℝ) * (1/10)
  let volumeVal : ℝ := (looped.sourceValues .LFO3).getD 0 * (amounts 2 : ℝ) * (3/10)
  { looped with destinationValues := fun dest =>
      if dest = .FilterCutoff then some cutoffVal
      else if dest = .Pitch then some pitchVal
      else if dest = .Volume then some volumeVal
      else none }

/-! ## ADSR envelope (juce::ADSR, external library) -/

/-- Stage of a `juce::ADSR` envelope (external JUCE class used by the
voice; modelled from its documented state-transition behaviour). -/
inductive AdsrStage where
  | idle | attack | decay | sustain | release
deriving DecidableEq

/-- `juce::ADSR::Parameters` (seconds / level). -/
structure AdsrParams where
  attack : ℚ
  decay : ℚ
  sustain : ℚ
  release : ℚ

/-- The stage-relevant state of a `juce::ADSR`. -/
structure AdsrState where
  stage : AdsrStage
  params : AdsrParams

/-- `juce::ADSR::isActive()`: the envelope is in any non-idle stage. -/
def adsrIsActive (a : AdsrState) : Bool :=
  decide (a.stage ≠ .idle)

/-- `juce::ADSR::noteOn()`: enter attack (or skip empty stages). -/
def adsrNoteOn (a : AdsrState) : AdsrState :=
  if 0 < a.params.attack then { a with stage := .attack }
  else if 0 < a.params.decay then { a with stage := .decay }
  else { a with stage := .sustain }

/-- `juce::ADSR::noteOff()`: an active envelope moves to the release
stage when the release time is positive, otherwise it resets to idle.
An idle envelope is unchanged. -/
def adsrNoteOff (a : AdsrState) : AdsrState :=
  if a.stage = .idle then a
  else if 0 < a.params.release then { a with stage := .release }
  else { a with stage := .idle }

/-! ## Sampler voice (class AdvancedSamplerVoice) -/

/-- Embeds the per-voice state used by `startNote` / `stopNote` /
`renderNextBlock`.  `currentNote` is `juce::SynthesiserVoice`'s
currently-playing note: `clearCurrentNote()` sets it to `none`, and the
synthesiser treats the voice as idle exactly when it is `none`. -/
structure VoiceState where
  currentNote : Option ℤ
  currentSample : Option SampleData
  currentPosition : ℚ
  positionIncrement : ℝ
  loopingForward : Bool
  velocity : ℚ
  adsr : AdsrState

/-- `pitchRatio` from `AdvancedSamplerVoice::startNote`:
`std::pow(2.0, (midiNoteNumber - rootNote) / 12.0)`. -/
noncomputable def pitchRatio (midiNoteNumber rootNote : ℤ) : ℝ :=
  (2 : ℝ) ^ ((((midiNoteNumber : ℝ)) - (rootNote : ℝ)) / 12)

/-- `positionIncrement` from `AdvancedSamplerVoice::startNote`:
`pitchRatio * currentSample->sampleRate / getSampleRate()`. -/
noncomputable def positionIncrementOf (midiNoteNumber rootNote : ℤ)
    (sampleRate engineSampleRate : ℚ) : ℝ :=
  pitchRatio midiNoteNumber rootNote * (sampleRate : ℝ) / (engineSampleRate : ℝ)

/-- Embeds `AdvancedSamplerVoice::startNote` (the fields of the voice it
assigns; the `setSourceValue` calls publishing Velocity/KeyTrack to the
modulation matrix are covered by `setSourceValue` above).  When no sample
resolves, or the resolved sample is empty, the voice clears its note
(`clearCurrentNote`) and returns. -/
noncomputable def startNote (samples : List SampleData)
    (engineSampleRate : ℚ) (midiNoteNumber : ℤ) (vel : ℚ)
    (v : VoiceState) : VoiceState :=
  match getSampleForNote samples midiNoteNumber with
  | none => { v with currentSample := none, currentNote := none }
  | some s =>
      if s.numSamples = 0 then
        { v with currentSample := some s, currentNote := none }
      else
        { v with
          currentSample := some s,
          currentNote := some midiNoteNumber,
          velocity := vel,
          positionIncrement :=
            positionIncrementOf midiNoteNumber s.rootNote s.sampleRate
              engineSampleRate,
          currentPosition := 0,
          loopingForward := true,
          adsr := adsrNoteOn v.adsr }

/-- Embeds `AdvancedSamplerVoice::stopNote(velocity, allowTailOff)`:
`adsr.noteOff()` always runs; `clearCurrentNote()` runs only when
tail-off is disallowed.  No other voice field is touched. -/
def stopNote (v : VoiceState) (allowTailOff : Bool) : VoiceState :=
  let v1 := { v with adsr := adsrNoteOff v.adsr }
  if allowTailOff then v1 else { v1 with currentNote := none }

/-- The entry guard of `AdvancedSamplerVoice::renderNextBlock`: rendering
proceeds only when `currentSample != nullptr && adsr.isActive()`;
otherwise the voice is cleared and the call returns without output. -/
def renderGuardPasses (v : VoiceState) : Bool :=
  v.currentSample.isSome && adsrIsActive v.adsr

/-- `loopStartSample` of `renderNextBlock`:
`(int)(currentSample->loopStart * sampleLength)`. -/
def loopStartSampleOf (s : SampleData) : ℤ :=
  cppIntCast (s.loopStart * s.numSamples)

/-- `loopEndSample` of `renderNextBlock`:
`(int)(currentSample->loopEnd * sampleLength)`. -/
def loopEndSampleOf (s : SampleData) : ℤ :=
  cppIntCast (s.loopEnd * s.numSamples)

/-- Result of one cursor-advance step at the bottom of the per-sample
loop of `renderNextBlock`.  `sampleEnded` records that the non-looping
path ran past the end of the sample (the code then calls
`adsr.noteOff()` and breaks out of the loop). -/
structure AdvanceResult where
  pos : ℚ
  fwd : Bool
  sampleEnded : Bool
deriving DecidableEq

/-- Embeds the cursor-advance step of `renderNextBlock` (the
`loopEnabled` branch with its `switch` on the loop mode, and the
non-looping fallthrough).  `inc` is the step's `modifiedIncrement`
(`positionIncrement * std::pow(2.0, pitchMod)` in the code). -/
def advanceCursor (loopEnabled : Bool) (loopMode : ℤ) (ls le : ℤ)
    (sampleLength : ℕ) (inc pos : ℚ) (fwd : Bool) : AdvanceResult :=
  if loopEnabled ∧ (ls : ℚ) ≤ pos then
    if loopMode = 0 then
      ⟨if (le : ℚ) ≤ pos + inc then (ls : ℚ) + (pos + inc - (le : ℚ))
       else pos + inc, fwd, false⟩
    else if loopMode = 1 then
      ⟨if pos - inc ≤ (ls : ℚ) then (le : ℚ) - ((ls : ℚ) - (pos - inc))
       else pos - inc, fwd, false⟩
    else if loopMode = 2 then
      if fwd then
        if (le : ℚ) ≤ pos + inc then
          ⟨(le : ℚ) - (pos + inc - (le : ℚ)), false, false⟩
        else ⟨pos + inc, true, false⟩
      else
        if pos - inc ≤ (ls : ℚ) then
          ⟨(ls : ℚ) + ((ls : ℚ) - (pos - inc)), true, false⟩
        else ⟨pos - inc, false, false⟩
    else ⟨pos, fwd, false⟩
  else ⟨pos + inc, fwd, decide ((sampleLength : ℚ) ≤ pos + inc)⟩

/-- The frame indices of the sample buffer that the interpolation code of
`renderNextBlock` dereferences for the current cursor position: inside
`[0, sampleLength)` it reads `index` and, when `index < sampleLength - 1`,
also `index + 1`; outside that range it reads nothing. -/
def accessedIndices (sampleLength : ℕ) (pos : ℚ) : List ℤ :=
  if 0 ≤ pos ∧ pos < (sampleLength : ℚ) then
    let index := cppIntCast pos
    if index < (sampleLength : ℤ) - 1 then [index, index + 1] else [index]
  else []

/-- Embeds the per-channel interpolation of `renderNextBlock`: linear
interpolation between `data[index]` and `data[index+1]` at the fractional
cursor, the single-point read at the last frame, and the untouched
`0.0f` initial value when the cursor is outside `[0, sampleLength)`. -/
def interpolateChannel (chData : ℕ → ℚ) (sampleLength : ℕ) (pos : ℚ) : ℚ :=
  if 0 ≤ pos ∧ pos < (sampleLength : ℚ) then
    let index := cppIntCast pos
    let fraction := pos - (index : ℚ)
    if index < (sampleLength : ℤ) - 1 then
      chData index.toNat * (1 - fraction) + chData (index.toNat + 1) * fraction
    else chData index.toNat
  else 0

/-- The value the voice adds into one output channel for one output
sample: the interpolated sample scaled by `envelopeValue * velocity`
(`leftSample *= envelopeValue * velocity`). -/
def voiceContribution (chData : ℕ → ℚ) (sampleLength : ℕ) (pos : ℚ)
    (envelopeValue vel : ℚ) : ℚ :=
  interpolateChannel chData sampleLength pos * (envelopeValue * vel)

/-! ## Remaining definitions used by the claim theorems -/

/-- Modelled from the spec's words for `resolve(noteNumber)`: the first
sample whose range contains the note (head of the matching sublist),
falling back to the first-loaded sample, `null` only on an empty
library.  Compared against `getSampleForNote` below. -/
def resolveSpec (samples : List SampleData) (n : ℤ) : Option SampleData :=
  match (samples.filter (noteInRange n)).head? with
  | some s => some s
  | none => samples.head?

/-- `n` successive cursor-advance steps of `renderNextBlock` in Ping-Pong
mode (`loopMode = 2`, looping enabled), with per-step increments
`incs 0, incs 1, ...` (each step's `modifiedIncrement`). -/
def pingPongIter (ls le : ℤ) (sampleLength : ℕ) (incs : ℕ → ℚ) :
    ℕ → ℚ × Bool → ℚ × Bool
  | 0, st => st
  | n + 1, st =>
      ((advanceCursor true 2 ls le sampleLength (incs n)
          (pingPongIter ls le sampleLength incs n st).1
          (pingPongIter ls le sampleLength incs n st).2).pos,
       (advanceCursor true 2 ls le sampleLength (incs n)
          (pingPongIter ls le sampleLength incs n st).1
          (pingPongIter ls le sampleLength incs n st).2).fwd)

/-- A loaded 1000-frame mono sample with the claim C5 loop setup:
`loopStart = 0.2`, `loopEnd = 0.8`, Forward loop enabled. -/
def demoLoopSample : SampleData :=
  { numChannels := 1, numSamples := 1000, data := fun _ _ => 0,
    loopStart := 1/5, loopEnd := 4/5, loopEnabled := true, loopMode := 0 }

/-- A generic loaded sample (all metadata at the struct defaults). -/
def demoSample : SampleData :=
  { numChannels := 1, numSamples := 1000, data := fun _ _ => 0 }

/-- A voice in mid-playback: sounding note 60, cursor at frame 500,
envelope in the sustain stage with the default parameter values
(attack 0.01, decay 0.1, sustain 0.8, release 0.5). -/
noncomputable def demoVoiceActive : VoiceState :=
  { currentNote := some 60, currentSample := some demoSample,
    currentPosition := 500, positionIncrement := 1, loopingForward := true,
    velocity := 1,
    adsr := { stage := .sustain,
              params := { attack := 1/100, decay := 1/10,
                          sustain := 4/5, release := 1/2 } } }

/-- A modulation-matrix state whose destination map still holds stale
values (`7`) from a previous block and whose LFOs are at phase 0. -/
noncomputable def mtxDemo : MatrixState :=
  { lfos := fun _ => ⟨0, 0, 0⟩,
    sourceValues := fun _ => none,
    destinationValues := fun _ => some 7 }

/-! ## Helper lemmas -/

/-- `find?` returns the head of the filtered list. -/
theorem find?_eq_head?_filter {α : Type} (p : α → Bool) (l : List α) :
    l.find? p = (l.filter p).head? := by
  induction l with
  | nil => rfl
  | cons a t ih =>
      by_cases h : p a
      · rw [List.find?_cons_of_pos _ h, List.filter_cons_of_pos h,
            List.head?_cons]
      · rw [List.find?_cons_of_neg _ h, List.filter_cons_of_neg h, ih]

/-- `jlimit 20 20000` agrees with the max/min clamp. -/
theorem jlimit_as_clamp (v : ℚ) : jlimit 20 20000 v = max 20 (min 20000 v) := by
  unfold jlimit
  rcases lt_or_le v 20 with h | h
  · rw [if_pos h, min_eq_right (by linarith), max_eq_left (by linarith)]
  · rw [if_neg (not_lt.mpr h)]
    rcases lt_or_le 20000 v with h2 | h2
    · rw [if_pos h2, min_eq_left (by linarith), max_eq_right (by linarith)]
    · rw [if_neg (not_lt.mpr h2), min_eq_right h2, max_eq_right h]

/-! ## Claim C4: note-to-sample resolution -/

/-- Claim C4: for every note number and library state,
`getSampleForNote` returns the first loaded sample whose inclusive range
`[lowestNote, highestNote]` contains the note; with no match and a
non-empty library it returns the first-loaded sample; it returns null
exactly when the library is empty. -/
theorem claim_C4_resolve (samples : List SampleData) (n : ℤ) :
    getSampleForNote samples n = resolveSpec samples n ∧
    (getSampleForNote samples n = none ↔ samples = []) := by
  constructor
  · unfold getSampleForNote resolveSpec
    rw [find?_eq_head?_filter]
  · constructor
    · intro h
      unfold getSampleForNote at h
      cases hf : samples.find? (noteInRange n) with
      | some s => rw [hf] at h; exact absurd h (by simp)
      | none =>
          rw [hf] at h
          exact List.head?_eq_none_iff.mp h
    · rintro rfl; rfl

/-! ## Claim C8: filter cutoff modulation -/

/-- Claim C8: with a cutoff-modulation bias available, the cutoff the
filter receives is `clamp(cutoffParam + cutoffModBias * cutoffParam, 20,
20000)` — a fractional bias of the base cutoff (e.g. base 1000 with bias
0.5 gives 1500, not 1000.5) — and the resonance parameter is passed
through unchanged. -/
theorem claim_C8_filter_cutoff (cutoffParam resParam m : ℚ) (fs : FilterState) :
    (filterProcessBlock cutoffParam resParam (some m) fs).cutoff =
      specEffectiveCutoff cutoffParam m ∧
    (filterProcessBlock cutoffParam resParam (some m) fs).resonance = resParam ∧
    (filterProcessBlock 1000 resParam (some (1/2)) fs).cutoff = 1500 := by
  refine ⟨?_, rfl, ?_⟩
  · show jlimit 20 20000 (cutoffParam + m * cutoffParam) =
      specEffectiveCutoff cutoffParam m
    rw [jlimit_as_clamp]; rfl
  · show jlimit 20 20000 (1000 + 1/2 * 1000) = 1500
    norm_num [jlimit]

/-! ## Claim C9: sample loading -/

/-- Claim C9 counterexample: on a failed decode the caller-visible result
of `loadSample` is exactly the unchanged sample collection — the C++
function returns `void`, so no boolean/optional failure result is
surfaced to the caller; at this concrete input a failed load is
indistinguishable from never having called `load` at all. -/
theorem claim_C9_counterexample :
    loadSample [] none 60 = ([] : List SampleData) ∧
    loadSample [demoSample] none 60 = [demoSample] := ⟨rfl, rfl⟩

/-- Claim C9 as amended: a failed decode appends no sample and leaves the
collection unchanged (and nothing is thrown), but the failure is NOT
surfaced to the caller (`loadSample` returns void); a successful decode
appends one sample with default loop bounds (0.25, 0.75), default note
range 0–127, and the given root note. -/
theorem claim_C9_load (samples : List SampleData) (d : DecodedAudio) (root : ℤ) :
    loadSample samples none root = samples ∧
    (∃ s, loadSample samples (some d) root = samples ++ [s] ∧
      s.loopStart = 1/4 ∧ s.loopEnd = 3/4 ∧ s.lowestNote = 0 ∧
      s.highestNote = 127 ∧ s.rootNote = root ∧ s.sampleRate = d.sampleRate ∧
      s.loopEnabled = false ∧ s.loopMode = 0) := by
  exact ⟨rfl, ⟨_, rfl, rfl, rfl, rfl, rfl, rfl, rfl, rfl, rfl⟩⟩

/-! ## Claims C3 and C5: loop-boundary behaviour of the cursor advance -/

/-- One Ping-Pong advance step keeps a cursor that starts inside
`[loopStartSample, loopEndSample]` inside that interval, provided the
step increment is nonnegative and at most the loop length. -/
theorem pingpong_step_mem (ls le : ℤ) (len : ℕ) (inc pos : ℚ) (fwd : Bool)
    (h1 : (ls : ℚ) ≤ pos) (h2 : pos ≤ (le : ℚ)) (h3 : 0 ≤ inc)
    (h4 : inc ≤ (le : ℚ) - (ls : ℚ)) :
    (ls : ℚ) ≤ (advanceCursor true 2 ls le len inc pos fwd).pos ∧
    (advanceCursor true 2 ls le len inc pos fwd).pos ≤ (le : ℚ) := by
  have hmode0 : ¬ (2 : ℤ) = 0 := by decide
  have hmode1 : ¬ (2 : ℤ) = 1 := by decide
  unfold advanceCursor
  rw [if_pos ⟨rfl, h1⟩, if_neg hmode0, if_neg hmode1,
      if_pos (rfl : (2 : ℤ) = 2)]
  cases fwd with
  | true =>
      rw [if_pos (rfl : true = true)]
      by_cases hc : (le : ℚ) ≤ pos + inc
      · rw [if_pos hc]
        constructor
        · show (ls : ℚ) ≤ (le : ℚ) - (pos + inc - (le : ℚ)); linarith
        · show (le : ℚ) - (pos + inc - (le : ℚ)) ≤ (le : ℚ); linarith
      · rw [if_neg hc]
        constructor
        · show (ls : ℚ) ≤ pos + inc; linarith
        · show pos + inc ≤ (le : ℚ); linarith
  | false =>
      rw [if_neg (by decide : ¬ false = true)]
      by_cases hc : pos - inc ≤ (ls : ℚ)
      · rw [if_pos hc]
        constructor
        · show (ls : ℚ) ≤ (ls : ℚ) + ((ls : ℚ) - (pos - inc)); linarith
        · show (ls : ℚ) + ((ls : ℚ) - (pos - inc)) ≤ (le : ℚ); linarith
      · rw [if_neg hc]
        constructor
        · show (ls : ℚ) ≤ pos - inc; linarith
        · show pos - inc ≤ (le : ℚ); linarith

/-- Claim C3 counterexample: in Ping-Pong mode with
`loopStartSample = 2`, `loopEndSample = 7` (a 10-frame sample) and a step
increment of 8 (> loop length 5), a cursor engaged at position 7 reflects
to −1, leaving `[loopStart*length, loopEnd*length]` — the claim's
unconditional invariant is false. -/
theorem claim_C3_counterexample :
    (advanceCursor true 2 2 7 10 8 7 true).pos = -1 ∧
    (advanceCursor true 2 2 7 10 8 7 true).pos < 2 := by
  constructor <;> norm_num [advanceCursor]

/-- Claim C3 as amended: once the cursor is inside
`[loopStart*length, loopEnd*length]`, it remains inside after every
subsequent Ping-Pong advance step provided each step's increment is
nonnegative and at most the loop length; and the direction flag flips at
each bound (forward reflection sets it to backward, backward reflection
to forward). -/
theorem claim_C3_pingpong (ls le : ℤ) (len : ℕ) (incs : ℕ → ℚ)
    (pos₀ : ℚ) (fwd₀ : Bool) (h1 : (ls : ℚ) ≤ pos₀) (h2 : pos₀ ≤ (le : ℚ))
    (hincs : ∀ k, 0 ≤ incs k ∧ incs k ≤ (le : ℚ) - (ls : ℚ)) :
    (∀ n, (ls : ℚ) ≤ (pingPongIter ls le len incs n (pos₀, fwd₀)).1 ∧
          (pingPongIter ls le len incs n (pos₀, fwd₀)).1 ≤ (le : ℚ)) ∧
    (∀ inc pos, (ls : ℚ) ≤ pos →
      ((le : ℚ) ≤ pos + inc →
        (advanceCursor true 2 ls le len inc pos true).fwd = false) ∧
      (pos - inc ≤ (ls : ℚ) →
        (advanceCursor true 2 ls le len inc pos false).fwd = true)) := by
  have hmode0 : ¬ (2 : ℤ) = 0 := by decide
  have hmode1 : ¬ (2 : ℤ) = 1 := by decide
  constructor
  · intro n
    induction n with
    | zero => exact ⟨h1, h2⟩
    | succ n ih =>
        have hstep := pingpong_step_mem ls le len (incs n)
          (pingPongIter ls le len incs n (pos₀, fwd₀)).1
          (pingPongIter ls le len incs n (pos₀, fwd₀)).2
          ih.1 ih.2 (hincs n).1 (hincs n).2
        exact hstep
  · intro inc pos hpos
    constructor
    · intro hc
      unfold advanceCursor
      rw [if_pos ⟨rfl, hpos⟩, if_neg hmode0, if_neg hmode1,
          if_pos (rfl : (2 : ℤ) = 2), if_pos (rfl : true = true), if_pos hc]
    · intro hc
      unfold advanceCursor
      rw [if_pos ⟨rfl, hpos⟩, if_neg hmode0, if_neg hmode1,
          if_pos (rfl : (2 : ℤ) = 2), if_neg (by decide : ¬ false = true),
          if_pos hc]

/-- Witness for claim C3's amended theorem: with loop `[2, 7]` in a
10-frame sample and constant increment 3, four Ping-Pong steps from
position 2 stay inside `[2, 7]`. -/
theorem claim_C3_pingpong_witness :
    ((2 : ℤ) : ℚ) ≤ (pingPongIter 2 7 10 (fun _ => 3) 4 (2, true)).1 ∧
    (pingPongIter 2 7 10 (fun _ => 3) 4 (2, true)).1 ≤ ((7 : ℤ) : ℚ) := by
  have h := claim_C3_pingpong 2 7 10 (fun _ => 3) 2 true
    (by norm_num) (by norm_num)
    (fun k => ⟨by norm_num, by norm_num⟩)
  exact h.1 4

/-- The Forward-mode cursor advance, for an engaged cursor, advances and
wraps as a single expression. -/
theorem forward_step_eq (ls le : ℤ) (len : ℕ) (inc pos : ℚ) (fwd : Bool)
    (h : (ls : ℚ) ≤ pos) :
    advanceCursor true 0 ls le len inc pos fwd =
      ⟨if (le : ℚ) ≤ pos + inc then (ls : ℚ) + (pos + inc - (le : ℚ))
       else pos + inc, fwd, false⟩ := by
  unfold advanceCursor
  rw [if_pos ⟨rfl, h⟩, if_pos (rfl : (0 : ℤ) = 0)]

/-- Claim C5 counterexample: with `loopStartSample = 200`,
`loopEndSample = 800`, an engaged cursor at 790 advanced by 700 wraps to
`200 + (1490 − 800) = 890` — the wrap equation holds, but the cursor ends
the step beyond index 800, so "never exceeds index 800" is false without
a bound on the step increment. -/
theorem claim_C5_counterexample :
    (advanceCursor true 0 200 800 1000 700 790 true).pos = 890 ∧
    ¬ (advanceCursor true 0 200 800 1000 700 790 true).pos ≤ 800 := by
  constructor <;> norm_num [advanceCursor]

/-- Claim C5 as amended: with `loopStart = 0.2`, `loopEnd = 0.8`,
`length = 1000` (so `loopStartSample = 200`, `loopEndSample = 800`), an
engaged Forward-mode cursor-advance step that crosses index 800 wraps to
exactly `200 + (advanced cursor − 800)`; and provided each step's
increment is nonnegative and at most the 600-frame loop length, the
cursor never exceeds index 800 (and never drops below 200). -/
theorem claim_C5_forward_wrap (pos inc : ℚ) (fwd : Bool)
    (h1 : (200 : ℚ) ≤ pos) (h2 : pos ≤ 800) (h3 : 0 ≤ inc)
    (h4 : inc ≤ 600) :
    loopStartSampleOf demoLoopSample = 200 ∧
    loopEndSampleOf demoLoopSample = 800 ∧
    ((800 : ℚ) ≤ pos + inc →
      (advanceCursor true 0 200 800 1000 inc pos fwd).pos =
        200 + (pos + inc - 800)) ∧
    (200 : ℚ) ≤ (advanceCursor true 0 200 800 1000 inc pos fwd).pos ∧
    (advanceCursor true 0 200 800 1000 inc pos fwd).pos ≤ 800 := by
  have h200 : (((200 : ℤ)) : ℚ) = 200 := by norm_num
  have h800 : (((800 : ℤ)) : ℚ) = 800 := by norm_num
  have hstep := forward_step_eq 200 800 1000 inc pos fwd (by rw [h200]; exact h1)
  rw [h200, h800] at hstep
  refine ⟨?_, ?_, ?_, ?_, ?_⟩
  · show cppIntCast (1/5 * (1000 : ℕ)) = 200
    norm_num [cppIntCast]
  · show cppIntCast (4/5 * (1000 : ℕ)) = 800
    norm_num [cppIntCast]
  · intro hc
    rw [hstep]
    show (if (800 : ℚ) ≤ pos + inc then 200 + (pos + inc - 800)
          else pos + inc) = 200 + (pos + inc - 800)
    rw [if_pos hc]
  · rw [hstep]
    show (200 : ℚ) ≤ (if (800 : ℚ) ≤ pos + inc then 200 + (pos + inc - 800)
          else pos + inc)
    split_ifs with hc <;> linarith
  · rw [hstep]
    show (if (800 : ℚ) ≤ pos + inc then 200 + (pos + inc - 800)
          else pos + inc) ≤ 800
    split_ifs with hc <;> linarith

/-- Witness for claim C5's amended theorem: an engaged cursor at 750
advanced by 100 crosses 800 and wraps to 250, staying at most 800. -/
theorem claim_C5_forward_wrap_witness :
    (advanceCursor true 0 200 800 1000 100 750 true).pos =
      200 + (750 + 100 - 800) ∧
    (advanceCursor true 0 200 800 1000 100 750 true).pos ≤ 800 := by
  have h := claim_C5_forward_wrap 750 100 true (by norm_num) (by norm_num)
    (by norm_num) (by norm_num)
  exact ⟨h.2.2.1 (by norm_num), h.2.2.2.2⟩

/-! ## Claim C10: buffer access safety of the interpolation -/

/-- Claim C10: during rendering, every frame index the interpolation
dereferences lies in `[0, sampleLength)` (the upper index `index + 1` is
taken only when `index < sampleLength - 1`, as recorded in
`accessedIndices`), and whenever the cursor is outside
`[0, sampleLength)` the voice contributes exactly 0 for that output
sample. -/
theorem claim_C10_buffer_access (len : ℕ) (pos : ℚ) :
    (∀ i ∈ accessedIndices len pos, 0 ≤ i ∧ i < (len : ℤ)) ∧
    (¬ (0 ≤ pos ∧ pos < (len : ℚ)) →
      ∀ chData env vel, voiceContribution chData len pos env vel = 0) := by
  constructor
  · intro i hi
    unfold accessedIndices at hi
    by_cases h : 0 ≤ pos ∧ pos < (len : ℚ)
    · rw [if_pos h] at hi
      have hcast : cppIntCast pos = ⌊pos⌋ := by
        unfold cppIntCast; rw [if_pos h.1]
      rw [hcast] at hi
      have hf0 : 0 ≤ ⌊pos⌋ := Int.le_floor.mpr (by exact_mod_cast h.1)
      have hfl : ⌊pos⌋ < (len : ℤ) := Int.floor_lt.mpr (by exact_mod_cast h.2)
      by_cases h2 : ⌊pos⌋ < (len : ℤ) - 1
      · rw [if_pos h2] at hi
        rcases List.mem_cons.mp hi with rfl | hi2
        · exact ⟨hf0, hfl⟩
        · rcases List.mem_cons.mp hi2 with rfl | hi3
          · exact ⟨by omega, by omega⟩
          · exact absurd hi3 (List.not_mem_nil _)
      · rw [if_neg h2] at hi
        rcases List.mem_cons.mp hi with rfl | hi2
        · exact ⟨hf0, hfl⟩
        · exact absurd hi2 (List.not_mem_nil _)
    · rw [if_neg h] at hi
      exact absurd hi (List.not_mem_nil _)
  · intro h chData env vel
    unfold voiceContribution interpolateChannel
    rw [if_neg h, zero_mul]

/-- Witness for claim C10: a cursor at −1 in a 4-frame sample accesses no
frame and contributes exactly 0. -/
theorem claim_C10_witness :
    voiceContribution (fun _ => 5) 4 (-1) 1 1 = 0 :=
  (claim_C10_buffer_access 4 (-1)).2 (by norm_num) (fun _ => 5) 1 1

/-! ## Claim C2: stopNote with tail-off disallowed -/

/-- Claim C2 evidence: for a voice in the Sustain stage at cursor 500
with the default release time 0.5s, `stopNote(vel, allowTailOff=false)`
clears only the playing-note id; the playback cursor is NOT cleared (it
stays at 500), the envelope is NOT cleared (it moves to Release and is
still active), the sample pointer is kept, and the voice still passes
`renderNextBlock`'s entry guard — so it keeps ringing out instead of
being force-terminated within the same render call. -/
theorem claim_C2_stopnote_not_forced_idle :
    (stopNote demoVoiceActive false).currentNote = none ∧
    (stopNote demoVoiceActive false).currentPosition = 500 ∧
    (stopNote demoVoiceActive false).adsr.stage = AdsrStage.release ∧
    adsrIsActive (stopNote demoVoiceActive false).adsr = true ∧
    (stopNote demoVoiceActive false).currentSample = some demoSample ∧
    renderGuardPasses (stopNote demoVoiceActive false) = true := by
  refine ⟨?_, ?_, ?_, ?_, ?_, ?_⟩ <;>
    norm_num [stopNote, adsrNoteOff, demoVoiceActive, adsrIsActive,
      renderGuardPasses] <;> decide

/-! ## Claim C1: the random LFO waveform -/

/-- Along any run of the random-waveform LFO whose per-call phase
increment lies in `[0, 1]` and whose initial phase lies in `[0, 1)`, the
phase always stays in `[0, 1)` at call entry and the held random value is
never redrawn. -/
theorem lfo4_iterate_props (f sr : ℚ) (rng : ℕ → ℚ) (s₀ : LFOState)
    (h0 : 0 ≤ s₀.phase) (h1 : s₀.phase < 1) (hi0 : 0 ≤ f / sr)
    (hi1 : f / sr ≤ 1) (n : ℕ) :
    0 ≤ ((lfoStep 4 f sr rng)^[n] s₀).phase ∧
    ((lfoStep 4 f sr rng)^[n] s₀).phase < 1 ∧
    ((lfoStep 4 f sr rng)^[n] s₀).randomValue = s₀.randomValue := by
  induction n with
  | zero => exact ⟨h0, h1, rfl⟩
  | succ n ih =>
      obtain ⟨ih0, ih1, ih2⟩ := ih
      rw [Function.iterate_succ_apply']
      refine ⟨?_, ?_, ?_⟩
      · simp only [lfoStep]
        split_ifs with hc <;> linarith
      · simp only [lfoStep]
        split_ifs with hc <;> linarith
      · simp only [lfoStep]
        rw [if_neg (fun hcon => absurd hcon.2 (not_le.mpr ih1)), ih2]

/-- Claim C1 evidence (the code never redraws): for the random waveform,
starting from any constructor-initialised state (phase in `[0,1)`), every
call of `getNextSample` outputs the initial `randomValue` — even across
phase wraps — because the phase is wrapped back below 1.0 at the end of
each call, so the `phase >= 1.0f` redraw branch never executes.  With the
constructor's `randomValue = 0`, the random waveform is constant 0. -/
theorem claim_C1_random_never_redraws (f sr : ℚ) (rng : ℕ → ℚ)
    (s₀ : LFOState) (h0 : 0 ≤ s₀.phase) (h1 : s₀.phase < 1)
    (hi0 : 0 ≤ f / sr) (hi1 : f / sr ≤ 1) (n : ℕ) :
    lfoOut 4 rng ((lfoStep 4 f sr rng)^[n] s₀) = (s₀.randomValue : ℝ) := by
  obtain ⟨hp0, hp1, hrv⟩ := lfo4_iterate_props f sr rng s₀ h0 h1 hi0 hi1 n
  show (((if 1 ≤ ((lfoStep 4 f sr rng)^[n] s₀).phase
      then rng ((lfoStep 4 f sr rng)^[n] s₀).rngIdx * 2 - 1
      else ((lfoStep 4 f sr rng)^[n] s₀).randomValue) : ℚ) : ℝ) =
    (s₀.randomValue : ℝ)
  rw [if_neg (not_le.mpr hp1), hrv]

/-- Witness for claim C1: an LFO at rate 1 Hz with sample rate 4 Hz
(phase increment 1/4, so the phase wraps every 4 calls) still outputs the
initial `randomValue = 0` at its 10th call. -/
theorem claim_C1_witness :
    lfoOut 4 (fun _ => 1/2) ((lfoStep 4 1 4 (fun _ => 1/2))^[9] ⟨0, 0, 0⟩) =
      ((0 : ℚ) : ℝ) := by
  have h := claim_C1_random_never_redraws 1 4 (fun _ => 1/2) ⟨0, 0, 0⟩
    (by show (0 : ℚ) ≤ 0; norm_num) (by show (0 : ℚ) < 1; norm_num)
    (by norm_num) (by norm_num) 9
  exact h

/-! ## Claim C6: pitch ratio and cursor increment -/

/-- Claim C6: the voice's pitch ratio is `2^((note − rootNote)/12)` and
the per-sample cursor increment is `pitchRatio * sample.sampleRate /
engineSampleRate`; note 72 against root 60 gives ratio 2 and note 48
gives ratio 1/2, with the corresponding increments. -/
theorem claim_C6_pitch_ratio :
    pitchRatio 72 60 = 2 ∧ pitchRatio 48 60 = 1/2 ∧
    (∀ sampleRate engineRate : ℚ,
      positionIncrementOf 72 60 sampleRate engineRate =
        2 * (sampleRate : ℝ) / (engineRate : ℝ) ∧
      positionIncrementOf 48 60 sampleRate engineRate =
        (1/2) * (sampleRate : ℝ) / (engineRate : ℝ)) := by
  have h72 : pitchRatio 72 60 = 2 := by
    unfold pitchRatio
    rw [show ((((72 : ℤ)) : ℝ) - (((60 : ℤ)) : ℝ)) / 12 = 1 by norm_num,
        Real.rpow_one]
  have h48 : pitchRatio 48 60 = 1/2 := by
    unfold pitchRatio
    rw [show ((((48 : ℤ)) : ℝ) - (((60 : ℤ)) : ℝ)) / 12 = -1 by norm_num,
        show (-1 : ℝ) = ((-1 : ℤ) : ℝ) by norm_num, Real.rpow_intCast]
    norm_num
  refine ⟨h72, h48, fun sampleRate engineRate => ⟨?_, ?_⟩⟩
  · unfold positionIncrementOf; rw [h72]
  · unfold positionIncrementOf; rw [h48]

/-! ## Claim C7: modulation-matrix block update -/

/-- After `k` iterations of the per-sample loop, each owned LFO has been
advanced `k` times. -/
theorem matrixIter_lfos (sr : ℚ) (rates : Fin 3 → ℚ) (waves : Fin 3 → ℕ)
    (rngs : Fin 3 → ℕ → ℚ) (k : ℕ) (st : MatrixState) (i : Fin 3) :
    ((matrixIterOnce sr rates waves rngs)^[k] st).lfos i =
      (lfoStep (waves i) (rates i) sr (rngs i))^[k] (st.lfos i) := by
  induction k with
  | zero => rfl
  | succ k ih =>
      rw [Function.iterate_succ_apply' (matrixIterOnce sr rates waves rngs),
          Function.iterate_succ_apply' (lfoStep (waves i) (rates i) sr (rngs i))]
      simp only [matrixIterOnce]
      rw [ih]

/-- After `k + 1` iterations of the per-sample loop, each LFO source
entry holds the sample its LFO produced at the last iteration (the
output of the `k`-times-advanced state). -/
theorem matrixIter_sources (sr : ℚ) (rates : Fin 3 → ℚ) (waves : Fin 3 → ℕ)
    (rngs : Fin 3 → ℕ → ℚ) (k : ℕ) (st : MatrixState) :
    ((matrixIterOnce sr rates waves rngs)^[k + 1] st).sourceValues .LFO1 =
      some (lfoOut (waves 0) (rngs 0)
        ((lfoStep (waves 0) (rates 0) sr (rngs 0))^[k] (st.lfos 0))) ∧
    ((matrixIterOnce sr rates waves rngs)^[k + 1] st).sourceValues .LFO2 =
      some (lfoOut (waves 1) (rngs 1)
        ((lfoStep (waves 1) (rates 1) sr (rngs 1))^[k] (st.lfos 1))) ∧
    ((matrixIterOnce sr rates waves rngs)^[k + 1] st).sourceValues .LFO3 =
      some (lfoOut (waves 2) (rngs 2)
        ((lfoStep (waves 2) (rates 2) sr (rngs 2))^[k] (st.lfos 2))) := by
  rw [Function.iterate_succ_apply' (matrixIterOnce sr rates waves rngs)]
  refine ⟨?_, ?_, ?_⟩ <;> simp only [matrixIterOnce] <;>
    simp [matrixIter_lfos]

/-- Claim C7: for a block of `numSamples ≥ 1` samples,
`ModulationMatrix::processBlock` clears all destination values and
recomputes exactly the three fixed routings, each from the LAST of the
`numSamples` successive samples its LFO produced during the block:
filter-cutoff = lfo1Last * lfo1Amount * 0.5, pitch = lfo2Last *
lfo2Amount * 0.1, volume = lfo3Last * lfo3Amount * 0.3; every other
destination reads 0 afterwards. -/
theorem claim_C7_matrix_block (sr : ℚ) (rates amounts : Fin 3 → ℚ)
    (waves : Fin 3 → ℕ) (rngs : Fin 3 → ℕ → ℚ) (st : MatrixState)
    (numSamples : ℕ) (hn : 1 ≤ numSamples) :
    (matrixProcessBlock sr rates amounts waves rngs numSamples
        st).destinationValues .FilterCutoff =
      some (lfoOut (waves 0) (rngs 0)
        ((lfoStep (waves 0) (rates 0) sr (rngs 0))^[numSamples - 1]
          (st.lfos 0)) * (amounts 0 : ℝ) * (1/2)) ∧
    (matrixProcessBlock sr rates amounts waves rngs numSamples
        st).destinationValues .Pitch =
      some (lfoOut (waves 1) (rngs 1)
        ((lfoStep (waves 1) (rates 1) sr (rngs 1))^[numSamples - 1]
          (st.lfos 1)) * (amounts 1 : ℝ) * (1/10)) ∧
    (matrixProcessBlock sr rates amounts waves rngs numSamples
        st).destinationValues .Volume =
      some (lfoOut (waves 2) (rngs 2)
        ((lfoStep (waves 2) (rates 2) sr (rngs 2))^[numSamples - 1]
          (st.lfos 2)) * (amounts 2 : ℝ) * (3/10)) ∧
    (∀ d, d ≠ ModulationDestination.FilterCutoff →
      d ≠ ModulationDestination.Pitch → d ≠ ModulationDestination.Volume →
      getModulationValue
        (matrixProcessBlock sr rates amounts waves rngs numSamples st) d = 0) := by
  obtain ⟨m, rfl⟩ : ∃ m, numSamples = m + 1 :=
    ⟨numSamples - 1, (Nat.succ_pred_eq_of_pos hn).symm⟩
  have hsrc := matrixIter_sources sr rates waves rngs m
    { st with destinationValues := fun _ => none }
  simp only [Nat.add_sub_cancel]
  refine ⟨?_, ?_, ?_, ?_⟩
  · simp only [matrixProcessBlock]
    rw [if_pos trivial, hsrc.1, Option.getD_some]
  · simp only [matrixProcessBlock]
    rw [if_neg (by decide :
          ¬ ModulationDestination.Pitch = ModulationDestination.FilterCutoff),
        if_pos trivial, hsrc.2.1, Option.getD_some]
  · simp only [matrixProcessBlock]
    rw [if_neg (by decide :
          ¬ ModulationDestination.Volume = ModulationDestination.FilterCutoff),
        if_neg (by decide :
          ¬ ModulationDestination.Volume = ModulationDestination.Pitch),
        if_pos trivial, hsrc.2.2, Option.getD_some]
  · intro d hd1 hd2 hd3
    unfold getModulationValue
    simp only [matrixProcessBlock]
    rw [if_neg hd1, if_neg hd2, if_neg hd3]
    rfl

/-- Witness for claim C7: a single-sample block on three square-wave
LFOs at phase 0 (each outputs 1) with all amounts 1 routes 0.5 to
filter-cutoff, and the Pan destination — which held a stale value 7 —
reads 0 after the block. -/
theorem claim_C7_matrix_block_witness :
    (matrixProcessBlock 4 (fun _ => 1) (fun _ => 1) (fun _ => 2)
        (fun _ _ => 0) 1 mtxDemo).destinationValues .FilterCutoff =
      some (lfoOut 2 (fun _ => 0)
        ((lfoStep 2 1 4 (fun _ => 0))^[0] ⟨0, 0, 0⟩) * ((1 : ℚ) : ℝ) * (1/2)) ∧
    getModulationValue (matrixProcessBlock 4 (fun _ => 1) (fun _ => 1)
      (fun _ => 2) (fun _ _ => 0) 1 mtxDemo) ModulationDestination.Pan = 0 := by
  have h := claim_C7_matrix_block 4 (fun _ => 1) (fun _ => 1) (fun _ => 2)
    (fun _ _ => 0) mtxDemo 1 (le_refl 1)
  exact ⟨h.1, h.2.2.2 ModulationDestination.Pan (by decide) (by decide) (by decide)⟩
